import Mathlib

/-!
Formalisation of the voice-controlled dashboard's command interpreter,
filter state and query engine (src/voice_controlled_dashboard.py,
Dashboard section, lines 51-175).

Modelling choices:
* Python strings are lists of characters (`Str`); `str.lower()` is a
  character map, substring testing (`in`) is `inStr`,
  `str.split()` splits on whitespace dropping empty tokens and
  `" ".join` is `List.intercalate [' ']`.
* Datetimes are integer timestamps in seconds; `timedelta(days = n)` is
  `n * 86400`, `timedelta(weeks = 1)` is `7 * 86400`, and
  `datetime.date()` followed by `pd.to_datetime` (which is the round
  trip the stored date range undergoes before the filtering comparison)
  is flooring to the enclosing midnight, `floorDay`.
* `dateparser.parse` is an external collaborator, modelled as an oracle
  `Str → Except Str (Option Int)`: `.ok none` is Python `None`
  (unparseable), `.error e` is a raised exception with message `e`.
* A pandas column that may hold `NaT`/`NaN` is an `Option Int`; every
  comparison against a missing value is `false`, as in pandas.
* The code keeps its item/payment vocabularies sorted; sorting affects
  only presentation order, never membership, so `dedup` alone stands in
  for `sorted(...unique())`.
-/

abbrev Str := List Char

/-- `str.lower()`. -/
def lowerStr (s : Str) : Str := s.map Char.toLower

/-- `transcript_lower.split()`: split on whitespace, dropping empty tokens. -/
def wordsOf (s : Str) : List Str :=
  (s.splitOnP (·.isWhitespace)).filter (fun w => w ≠ [])

/-- `" ".join(ws)`. -/
def joinW (ws : List Str) : Str := List.intercalate [' '] ws

/-- Python's `needle in hay` on strings: substring occurrence. -/
def inStr (needle hay : Str) : Bool := decide (needle <:+: hay)

/-- One day in seconds. -/
def daySecs : Int := 86400

/-- `datetime.date()` then `pd.to_datetime`: midnight of the enclosing calendar
day (floor division, matching Python calendar conventions on the timeline). -/
def floorDay (t : Int) : Int := daySecs * (Int.fdiv t daySecs)

/-- The last instant (23:59:59) of the calendar day containing `t`.  This is
the quantity the spec talks about; the code never computes it. -/
def endOfDayTS (t : Int) : Int := floorDay t + 86399

/-- One dataset row (`Fashion_Retail_Sales.csv` after `load_data` coercion):
`Purchase Amount (USD)`, `Date Purchase` and `Review Rating` may be missing. -/
structure Row where
  customer_id : Nat
  item_purchased : Str
  purchase_amount : Option Int
  purchase_date : Option Int
  review_rating : Option Int
  payment_method : Str
deriving DecidableEq

/-- The three session filters (`st.session_state.selected_items`,
`selected_payments`, `date_range`).  The date-range bounds are optional
because `df["Date Purchase"].min()` is `NaT` on an all-missing column. -/
structure FilterState where
  selected_items : List Str
  selected_payments : List Str
  date_range : Option Int × Option Int
deriving DecidableEq

attribute [ext] FilterState

/-- `sorted(df["Item Purchased"].dropna().unique())` (order dropped). -/
def allItems (ds : List Row) : List Str := (ds.map Row.item_purchased).dedup

/-- `sorted(df["Payment Method"].dropna().unique())` (order dropped). -/
def allPayments (ds : List Row) : List Str := (ds.map Row.payment_method).dedup

/-- The present (non-missing) purchase dates of the dataset. -/
def datasetDates (ds : List Row) : List Int := ds.filterMap Row.purchase_date

/-- `df["Date Purchase"].min()`: `none` on an empty/all-missing column. -/
def listMin : List Int → Option Int
  | [] => none
  | x :: xs => some (match listMin xs with
      | none => x
      | some m => min x m)

/-- `df["Date Purchase"].max()`. -/
def listMax : List Int → Option Int
  | [] => none
  | x :: xs => some (match listMax xs with
      | none => x
      | some m => max x m)

/-- The full-dataset default filter state: all distinct items, all distinct
payment methods, the dataset's full date span (lines 88-92 and 113-117). -/
def resetState (ds : List Row) : FilterState :=
  { selected_items := allItems ds
  , selected_payments := allPayments ds
  , date_range := (listMin (datasetDates ds), listMax (datasetDates ds)) }

/-- Line 113. -/
def resetKeywords : List Str :=
  [ "reset all filters".toList, "clear all filters".toList
  , "reset dashboard".toList, "clear dashboard".toList ]

/-- Line 114: `any(keyword in transcript_lower for keyword in reset_keywords)`,
applied to the already lower-cased transcript. -/
def isResetL (tl : Str) : Bool := resetKeywords.any (fun k => inStr k tl)

/-- Reset detection on a raw transcript (lines 111-114). -/
def isReset (t : Str) : Bool := isResetL (lowerStr t)

/-- Lines 123-126: items whose lower-cased name occurs in the transcript,
either bare or preceded by `"for "`. -/
def potentialItems (ds : List Row) (tl : Str) : List Str :=
  (allItems ds).filter (fun it =>
    inStr (lowerStr it) tl || inStr ("for ".toList ++ lowerStr it) tl)

/-- Lines 131-134: payment methods whose lower-cased name occurs in the
transcript, either bare or preceded by `"by "`. -/
def potentialPayments (ds : List Row) (tl : Str) : List Str :=
  (allPayments ds).filter (fun p =>
    inStr (lowerStr p) tl || inStr ("by ".toList ++ lowerStr p) tl)

/-- Lines 127-129: a non-empty match set replaces `selected_items`. -/
def applyItemsStage (ds : List Row) (tl : Str) (st : FilterState) : FilterState :=
  if potentialItems ds tl = [] then st
  else { st with selected_items := potentialItems ds tl }

/-- Lines 135-137: a non-empty match set replaces `selected_payments`. -/
def applyPaymentsStage (ds : List Row) (tl : Str) (st : FilterState) : FilterState :=
  if potentialPayments ds tl = [] then st
  else { st with selected_payments := potentialPayments ds tl }

/-- The state after the item and payment stages (lines 123-137). -/
def stagedState (ds : List Row) (tl : Str) (st : FilterState) : FilterState :=
  applyPaymentsStage ds tl (applyItemsStage ds tl st)

/-- Lines 141-146: if both `"from"` and `"to"` occur as words with the first
`"from"` before the first `"to"`, extract the two date phrases
(`words[from_index+1:to_index]` and `words[to_index+1:]`, re-joined). -/
def fromToSlices (ws : List Str) : Option (Str × Str) :=
  match ws.findIdx? (· = "from".toList), ws.findIdx? (· = "to".toList) with
  | some fi, some ti =>
    if fi < ti then
      some (joinW ((ws.take ti).drop (fi + 1)), joinW (ws.drop (ti + 1)))
    else none
  | _, _ => none

/-- Lines 139-164, the date stage of one transcript.  Returns
`.ok (some r)` when the code assigns `r` to `date_range`, `.ok none` when it
leaves `date_range` alone, and `.error e` when `dateparser.parse` raises.
The `"last"` branch (lines 154-164) runs only when the from/to condition
fails (it is an `elif`); it recognises only the unit words `"month"`
(30 days), `"week"` (1 week) and `"year"` (365 days), always with count 1,
and stores `.date()` values, hence the `floorDay`. -/
def dateStageCore (parse : Str → Except Str (Option Int)) (now : Int)
    (tl : Str) : Except Str (Option (Option Int × Option Int)) :=
  let ws := wordsOf tl
  match fromToSlices ws with
  | some (startRaw, endRaw) =>
    match parse startRaw with
    | .error e => .error e
    | .ok ps =>
      match parse endRaw with
      | .error e => .error e
      | .ok pe =>
        match ps, pe with
        | some s, some e2 => .ok (some (some s, some e2))
        | _, _ => .ok none
  | none =>
    if ws.contains "last".toList then
      let d : Int :=
        if ws.contains "month".toList then 30 * daySecs
        else if ws.contains "week".toList then 7 * daySecs
        else if ws.contains "year".toList then 365 * daySecs
        else 0
      .ok (some (some (floorDay (now - d)), some (floorDay now)))
    else .ok none

/-- The interpreter's result: the new filter state plus the warning messages
emitted (only the date-stage exception handler at lines 165-166 produces a
warning; the success toasts are presentation only and not modelled). -/
structure InterpOutput where
  state : FilterState
  warnings : List Str
deriving DecidableEq

/-- Lines 110-168: processing of one non-empty transcript.  Reset keywords
short-circuit everything; otherwise the item, payment and date stages run in
order, the date stage inside a `try/except` that turns a parser exception
into a warning. -/
def interpret (ds : List Row) (parse : Str → Except Str (Option Int))
    (now : Int) (t : Str) (st : FilterState) : InterpOutput :=
  let tl := lowerStr t
  if isResetL tl then
    { state := resetState ds, warnings := [] }
  else
    let st2 := stagedState ds tl st
    match dateStageCore parse now tl with
    | .ok o => { state := { st2 with date_range := o.getD st2.date_range }, warnings := [] }
    | .error e => { state := st2, warnings := [e] }

/-- One pandas comparison `column >= bound` (resp. mirrored): false whenever
either side is missing (`NaT` semantics). -/
def dateGE (d b : Option Int) : Bool :=
  match d, b with
  | some x, some y => decide (y ≤ x)
  | _, _ => false

def dateLE (d b : Option Int) : Bool :=
  match d, b with
  | some x, some y => decide (x ≤ y)
  | _, _ => false

/-- Lines 170-175, the retention predicate of `df_filtered`: the two `isin`
tests, the two date comparisons, and `dropna(subset=["Purchase Amount (USD)",
"Date Purchase"])`. -/
def rowPasses (st : FilterState) (r : Row) : Bool :=
  st.selected_items.contains r.item_purchased &&
  st.selected_payments.contains r.payment_method &&
  dateGE r.purchase_date st.date_range.1 &&
  dateLE r.purchase_date st.date_range.2 &&
  r.purchase_amount.isSome &&
  r.purchase_date.isSome

/-- The query engine: `df_filtered` as a pure function of dataset and state. -/
def queryEngine (ds : List Row) (st : FilterState) : List Row :=
  ds.filter (rowPasses st)

/-! ### Concrete material for witnesses and counterexamples -/

/-- A dataset with items `{"Belt", "Skirt"}` and payments
`{"Cash", "Credit Card"}`, as in the spec's worked example. -/
def beltRow : Row :=
  { customer_id := 1, item_purchased := "Belt".toList, purchase_amount := some 100
  , purchase_date := some 0, review_rating := some 3, payment_method := "Cash".toList }

def skirtRow : Row :=
  { customer_id := 2, item_purchased := "Skirt".toList, purchase_amount := some 50
  , purchase_date := some 86400, review_rating := none, payment_method := "Credit Card".toList }

def sampleDs : List Row := [beltRow, skirtRow]

/-- A date-parse oracle that never recognises anything (`None` everywhere). -/
def parseNone : Str → Except Str (Option Int) := fun _ => .ok none

/-- A starting filter state used by concrete scenarios. -/
def st0 : FilterState := resetState sampleDs

/-! ### Helper lemmas -/

theorem stagedState_date_range (ds : List Row) (tl : Str) (st : FilterState) :
    (stagedState ds tl st).date_range = st.date_range := by
  unfold stagedState applyPaymentsStage applyItemsStage
  split <;> split <;> rfl

theorem stagedState_items (ds : List Row) (tl : Str) (st : FilterState) :
    (stagedState ds tl st).selected_items
      = if potentialItems ds tl = [] then st.selected_items else potentialItems ds tl := by
  unfold stagedState applyPaymentsStage applyItemsStage
  split <;> split <;> rfl

theorem stagedState_payments (ds : List Row) (tl : Str) (st : FilterState) :
    (stagedState ds tl st).selected_payments
      = if potentialPayments ds tl = [] then st.selected_payments
        else potentialPayments ds tl := by
  unfold stagedState applyPaymentsStage applyItemsStage
  split <;> split <;> rfl

theorem interpret_ok (ds : List Row) (parse : Str → Except Str (Option Int))
    (now : Int) (t : Str) (st : FilterState)
    (o : Option (Option Int × Option Int))
    (hnr : isResetL (lowerStr t) = false)
    (hok : dateStageCore parse now (lowerStr t) = .ok o) :
    interpret ds parse now t st =
      { state := { stagedState ds (lowerStr t) st with
                    date_range := o.getD (stagedState ds (lowerStr t) st).date_range }
      , warnings := [] } := by
  unfold interpret
  simp [hnr, hok]

theorem interpret_err (ds : List Row) (parse : Str → Except Str (Option Int))
    (now : Int) (t : Str) (st : FilterState) (e : Str)
    (hnr : isResetL (lowerStr t) = false)
    (herr : dateStageCore parse now (lowerStr t) = .error e) :
    interpret ds parse now t st
      = { state := stagedState ds (lowerStr t) st, warnings := [e] } := by
  unfold interpret
  simp [hnr, herr]

/-! ### Claims -/

/-- C1: a transcript containing a reset keyword sets the filter state to the
full-dataset default (all distinct items, all distinct payments, full date
span), with no warning; no item, payment or date parsing of the transcript
occurs — the outcome is independent of the rest of the transcript, of the
date-parse oracle, of the clock and of the prior state. -/
theorem reset_priority (ds : List Row) (parse : Str → Except Str (Option Int))
    (now : Int) (t : Str) (st : FilterState) (h : isReset t = true) :
    interpret ds parse now t st = { state := resetState ds, warnings := [] } := by
  have h' : isResetL (lowerStr t) = true := h
  unfold interpret
  simp [h']

theorem reset_priority_witness :
    isReset "Please clear all filters and show belt".toList = true ∧
      interpret sampleDs parseNone 0 "Please clear all filters and show belt".toList st0
        = { state := resetState sampleDs, warnings := [] } :=
  ⟨by decide,
   reset_priority sampleDs parseNone 0 "Please clear all filters and show belt".toList st0
     (by decide)⟩

theorem sub_of_prepend {pre x tl : Str} (h : pre ++ x <:+: tl) : x <:+: tl :=
  List.IsInfix.trans ( List.IsSuffix.isInfix (List.suffix_append pre x)) h

theorem mem_potentialItems (ds : List Row) (tl : Str) (it : Str) :
    it ∈ potentialItems ds tl ↔
      it ∈ allItems ds ∧
        (lowerStr it <:+: tl ∨ "for ".toList ++ lowerStr it <:+: tl ∨
          "item ".toList ++ lowerStr it <:+: tl) := by
  simp only [potentialItems, List.mem_filter, Bool.or_eq_true, inStr, decide_eq_true_eq]
  constructor
  · rintro ⟨hm, hsub | hfor⟩
    · exact ⟨hm, Or.inl hsub⟩
    · exact ⟨hm, Or.inr (Or.inl hfor)⟩
  · rintro ⟨hm, hsub | hfor | hitem⟩
    · exact ⟨hm, Or.inl hsub⟩
    · exact ⟨hm, Or.inr hfor⟩
    · exact ⟨hm, Or.inl (sub_of_prepend hitem)⟩

theorem mem_potentialPayments (ds : List Row) (tl : Str) (p : Str) :
    p ∈ potentialPayments ds tl ↔
      p ∈ allPayments ds ∧
        (lowerStr p <:+: tl ∨ "by ".toList ++ lowerStr p <:+: tl ∨
          "payment ".toList ++ lowerStr p <:+: tl) := by
  simp only [potentialPayments, List.mem_filter, Bool.or_eq_true, inStr, decide_eq_true_eq]
  constructor
  · rintro ⟨hm, hsub | hby⟩
    · exact ⟨hm, Or.inl hsub⟩
    · exact ⟨hm, Or.inr (Or.inl hby)⟩
  · rintro ⟨hm, hsub | hby | hpay⟩
    · exact ⟨hm, Or.inl hsub⟩
    · exact ⟨hm, Or.inr hby⟩
    · exact ⟨hm, Or.inl (sub_of_prepend hpay)⟩

theorem interpret_items_eq (ds : List Row) (parse : Str → Except Str (Option Int))
    (now : Int) (t : Str) (st : FilterState) (hnr : isReset t = false) :
    (interpret ds parse now t st).state.selected_items
        = (stagedState ds (lowerStr t) st).selected_items ∧
      (interpret ds parse now t st).state.selected_payments
        = (stagedState ds (lowerStr t) st).selected_payments := by
  have h' : isResetL (lowerStr t) = false := hnr
  cases hd : dateStageCore parse now (lowerStr t) with
  | ok o => rw [interpret_ok ds parse now t st o h' hd]; exact ⟨rfl, rfl⟩
  | error e => rw [interpret_err ds parse now t st e h' hd]; exact ⟨rfl, rfl⟩

/-- C2: for a non-reset transcript, a known item matches exactly when its
lower-cased name is a substring of the lower-cased transcript or appears
after the linking words "for"/"item" (the linker disjuncts are subsumed by
the substring one, which is what lines 123-126 compute); a non-empty match
set wholly replaces `selected_items`, an empty one leaves it untouched; the
same with linkers "by"/"payment" for `selected_payments`; and on the sample
dataset the transcript "show belt paid by cash" selects exactly `Belt` and
`Cash`. -/
theorem item_payment_matching (ds : List Row)
    (parse : Str → Except Str (Option Int)) (now : Int) (t : Str)
    (st : FilterState) (hnr : isReset t = false) :
    (∀ it, it ∈ potentialItems ds (lowerStr t) ↔
        it ∈ allItems ds ∧
          (lowerStr it <:+: lowerStr t ∨
            "for ".toList ++ lowerStr it <:+: lowerStr t ∨
            "item ".toList ++ lowerStr it <:+: lowerStr t)) ∧
    (∀ p, p ∈ potentialPayments ds (lowerStr t) ↔
        p ∈ allPayments ds ∧
          (lowerStr p <:+: lowerStr t ∨
            "by ".toList ++ lowerStr p <:+: lowerStr t ∨
            "payment ".toList ++ lowerStr p <:+: lowerStr t)) ∧
    ((interpret ds parse now t st).state.selected_items
        = if potentialItems ds (lowerStr t) = [] then st.selected_items
          else potentialItems ds (lowerStr t)) ∧
    ((interpret ds parse now t st).state.selected_payments
        = if potentialPayments ds (lowerStr t) = [] then st.selected_payments
          else potentialPayments ds (lowerStr t)) ∧
    ((interpret sampleDs parseNone 0 "show belt paid by cash".toList st0).state.selected_items
        = ["Belt".toList]) ∧
    ((interpret sampleDs parseNone 0 "show belt paid by cash".toList st0).state.selected_payments
        = ["Cash".toList]) := by
  obtain ⟨hi, hp⟩ := interpret_items_eq ds parse now t st hnr
  refine ⟨fun it => mem_potentialItems ds (lowerStr t) it,
    fun p => mem_potentialPayments ds (lowerStr t) p, ?_, ?_, by decide, by decide⟩
  · rw [hi, stagedState_items]
  · rw [hp, stagedState_payments]

theorem item_payment_matching_witness :
    isReset "show belt paid by cash".toList = false ∧
      (interpret sampleDs parseNone 0 "show belt paid by cash".toList st0).state.selected_items
        = ["Belt".toList] :=
  ⟨by decide,
    (item_payment_matching sampleDs parseNone 0 "show belt paid by cash".toList st0
      (by decide)).2.2.2.2.1⟩

/-- The duration the `"last"` branch subtracts from `now`: the first matching
unit word among "month" (30 days), "week" (1 week), "year" (365 days),
otherwise zero (lines 156-162). -/
def lastOffset (ws : List Str) : Int :=
  if ws.contains "month".toList then 30 * daySecs
  else if ws.contains "week".toList then 7 * daySecs
  else if ws.contains "year".toList then 365 * daySecs
  else 0

theorem dateStageCore_fromto (parse : Str → Except Str (Option Int)) (now : Int)
    (tl sRaw eRaw : Str) (s e2 : Int)
    (hft : fromToSlices (wordsOf tl) = some (sRaw, eRaw))
    (hs : parse sRaw = .ok (some s)) (he : parse eRaw = .ok (some e2)) :
    dateStageCore parse now tl = .ok (some (some s, some e2)) := by
  simp [dateStageCore, hft, hs, he]

theorem dateStageCore_last (parse : Str → Except Str (Option Int)) (now : Int)
    (tl : Str) (hft : fromToSlices (wordsOf tl) = none)
    (hl : (wordsOf tl).contains "last".toList = true) :
    dateStageCore parse now tl
      = .ok (some (some (floorDay (now - lastOffset (wordsOf tl))), some (floorDay now))) := by
  have hl' : ['l', 'a', 's', 't'] ∈ wordsOf tl := by simpa using hl
  simp [dateStageCore, lastOffset, hft, hl']

theorem dateStageCore_noop (parse : Str → Except Str (Option Int)) (now : Int)
    (tl : Str) (hft : fromToSlices (wordsOf tl) = none)
    (hl : (wordsOf tl).contains "last".toList = false) :
    dateStageCore parse now tl = .ok none := by
  have hl' : ['l', 'a', 's', 't'] ∉ wordsOf tl := by simpa using hl
  simp [dateStageCore, hft, hl']

/-- An oracle realising the spec's from/to example: both phrases parse to
midnights (`31*86400` and `59*86400`). -/
def parseC3 : Str → Except Str (Option Int) := fun s =>
  if s = "january 2023".toList then .ok (some 2678400)
  else if s = "march 2023".toList then .ok (some 5097600)
  else .ok none

/-- C3 counterexample: on "from january 2023 to march 2023" with both phrases
parsing to midnights, the stored end bound is the parsed value itself
(a midnight), not the last instant 23:59:59 of its day — the code at line 152
performs no end-of-day adjustment. -/
theorem from_to_end_of_day_cex :
    (interpret sampleDs parseC3 0 "from january 2023 to march 2023".toList st0).state.date_range
        = (some 2678400, some 5097600) ∧
      (5097600 : Int) ≠ endOfDayTS 5097600 := by
  exact ⟨by decide, by decide⟩

/-- C3 amended: when "from" precedes "to" and both extracted phrases parse,
`date_range` becomes exactly the two parsed instants; the end bound keeps the
parsed time of day and is NOT forced to 23:59:59 of its calendar day. -/
theorem from_to_range_amended (ds : List Row)
    (parse : Str → Except Str (Option Int)) (now : Int) (t : Str)
    (st : FilterState) (sRaw eRaw : Str) (s e2 : Int)
    (hnr : isReset t = false)
    (hslice : fromToSlices (wordsOf (lowerStr t)) = some (sRaw, eRaw))
    (hs : parse sRaw = .ok (some s)) (he : parse eRaw = .ok (some e2)) :
    (interpret ds parse now t st).state.date_range = (some s, some e2) := by
  rw [interpret_ok ds parse now t st _ hnr
    (dateStageCore_fromto parse now (lowerStr t) sRaw eRaw s e2 hslice hs he)]
  rfl

theorem from_to_range_amended_witness :
    (interpret sampleDs parseC3 0 "from january 2023 to march 2023".toList st0).state.date_range
        = (some 2678400, some 5097600) :=
  from_to_range_amended sampleDs parseC3 0 "from january 2023 to march 2023".toList st0
    "january 2023".toList "march 2023".toList 2678400 5097600
    (by decide) (by decide) rfl rfl

/-- C4 counterexample: at reference instant `T = 864000` (a midnight), the
transcript "last 5 days" yields `date_range = [T, T]`, not `[T - 5 days, T]`:
the code recognises no "day"/"days" unit and ignores explicit integer
counts, so no recognised unit word means a zero offset. -/
theorem last_n_units_cex :
    (interpret sampleDs parseNone 864000 "last 5 days".toList st0).state.date_range
        = (some 864000, some 864000) ∧
      ((some (864000 : Int), some (864000 : Int))
          ≠ (some (864000 - 5 * daySecs), some (864000 : Int))) := by
  exact ⟨by decide, by decide⟩

/-- C4 amended: when the from/to branch does not fire and "last" occurs as a
word, `date_range` becomes `[date(now - d), date(now)]` (calendar-day
midnights) where `d` is 30 days if "month" occurs, else 1 week if "week"
occurs, else 365 days if "year" occurs, else 0; the count is always 1 — the
literal unit "day" and explicit integers such as "last 5 days" are not
recognised. -/
theorem last_units_amended (ds : List Row)
    (parse : Str → Except Str (Option Int)) (now : Int) (t : Str)
    (st : FilterState) (hnr : isReset t = false)
    (hft : fromToSlices (wordsOf (lowerStr t)) = none)
    (hl : (wordsOf (lowerStr t)).contains "last".toList = true) :
    (interpret ds parse now t st).state.date_range
      = (some (floorDay (now - lastOffset (wordsOf (lowerStr t)))), some (floorDay now)) := by
  rw [interpret_ok ds parse now t st _ hnr
    (dateStageCore_last parse now (lowerStr t) hft hl)]
  rfl

theorem last_units_amended_witness :
    (interpret sampleDs parseNone 1000000 "show last week".toList st0).state.date_range
      = (some 345600, some 950400) := by
  have h := last_units_amended sampleDs parseNone 1000000 "show last week".toList st0
    (by decide) (by decide) (by decide)
  rw [h]; decide

/-- An oracle that parses every phrase to the instant `1000`, realising the
premise of the spec's single-date fallback. -/
def parseC5 : Str → Except Str (Option Int) := fun _ => .ok (some 1000)

/-- C5 counterexample: the transcript "yesterday" matches neither the from/to
branch nor the "last" branch; even with an oracle that would parse the whole
transcript to instant 1000, the code never consults it and `date_range`
stays at its prior value instead of becoming the single-day range
`[1000, 23:59:59 of that day]` — no single-date fallback exists in the code. -/
theorem single_date_fallback_cex :
    parseC5 (lowerStr "yesterday".toList) = .ok (some 1000) ∧
      (interpret sampleDs parseC5 0 "yesterday".toList st0).state.date_range
        = (some 0, some 86400) ∧
      ((some (0 : Int), some (86400 : Int))
          ≠ (some (1000 : Int), some (endOfDayTS 1000))) := by
  exact ⟨rfl, by decide, by decide⟩

/-- C5 amended: when neither the from/to branch nor the "last" branch
matches, the interpreter leaves `date_range` unchanged and never invokes the
date parser — the result does not depend on the oracle at all. -/
theorem no_single_date_fallback_amended (ds : List Row) (now : Int) (t : Str)
    (st : FilterState) (hnr : isReset t = false)
    (hft : fromToSlices (wordsOf (lowerStr t)) = none)
    (hl : (wordsOf (lowerStr t)).contains "last".toList = false) :
    ∀ parse : Str → Except Str (Option Int),
      (interpret ds parse now t st).state.date_range = st.date_range := by
  intro parse
  rw [interpret_ok ds parse now t st _ hnr (dateStageCore_noop parse now (lowerStr t) hft hl)]
  exact stagedState_date_range ds (lowerStr t) st

theorem no_single_date_fallback_amended_witness :
    (interpret sampleDs parseC5 0 "yesterday".toList st0).state.date_range
      = st0.date_range :=
  no_single_date_fallback_amended sampleDs 0 "yesterday".toList st0
    (by decide) (by decide) (by decide) parseC5

/-- C10: a transcript whose words contain "last" but trigger neither the
from/to branch nor any of the unit words "month"/"week"/"year" still
overwrites `date_range`, setting both bounds to the current calendar day
(`[today, today]`), whatever the prior state was. -/
theorem bare_last_today_range (ds : List Row)
    (parse : Str → Except Str (Option Int)) (now : Int) (t : Str)
    (st : FilterState) (hnr : isReset t = false)
    (hft : fromToSlices (wordsOf (lowerStr t)) = none)
    (hl : (wordsOf (lowerStr t)).contains "last".toList = true)
    (hm : (wordsOf (lowerStr t)).contains "month".toList = false)
    (hw : (wordsOf (lowerStr t)).contains "week".toList = false)
    (hy : (wordsOf (lowerStr t)).contains "year".toList = false) :
    (interpret ds parse now t st).state.date_range
      = (some (floorDay now), some (floorDay now)) := by
  rw [interpret_ok ds parse now t st _ hnr (dateStageCore_last parse now (lowerStr t) hft hl)]
  have hm' : ['m', 'o', 'n', 't', 'h'] ∉ wordsOf (lowerStr t) := by simpa using hm
  have hw' : ['w', 'e', 'e', 'k'] ∉ wordsOf (lowerStr t) := by simpa using hw
  have hy' : ['y', 'e', 'a', 'r'] ∉ wordsOf (lowerStr t) := by simpa using hy
  simp [lastOffset, hm', hw', hy']

theorem bare_last_today_range_witness :
    (interpret sampleDs parseNone 864555 "last 5 days".toList st0).state.date_range
      = (some 864000, some 864000) := by
  have h := bare_last_today_range sampleDs parseNone 864555 "last 5 days".toList st0
    (by decide) (by decide) (by decide) (by decide) (by decide) (by decide)
  rw [h]; decide

/-- C6: a date-stage exception is caught: the interpreter still returns (the
`try/except` at lines 139-166 converts it into a warning), the item and
payment updates of the same transcript stay applied (the state is exactly
the post-item/payment state), and `date_range` is left at its prior value. -/
theorem date_exception_caught (ds : List Row) (parse : Str → Except Str (Option Int))
    (now : Int) (t : Str) (st : FilterState) (e : Str)
    (hnr : isReset t = false)
    (herr : dateStageCore parse now (lowerStr t) = .error e) :
    interpret ds parse now t st
        = { state := stagedState ds (lowerStr t) st, warnings := [e] } ∧
      (interpret ds parse now t st).state.date_range = st.date_range := by
  have h := interpret_err ds parse now t st e hnr herr
  exact ⟨h, by rw [h]; exact stagedState_date_range ds (lowerStr t) st⟩

/-- An oracle whose every call raises, to exercise the exception handler. -/
def parseErr : Str → Except Str (Option Int) := fun _ => .error "parse failure".toList

theorem date_exception_caught_witness :
    interpret sampleDs parseErr 0 "from a to b".toList st0
        = { state := stagedState sampleDs (lowerStr "from a to b".toList) st0
          , warnings := ["parse failure".toList] } :=
  (date_exception_caught sampleDs parseErr 0 "from a to b".toList st0
    "parse failure".toList (by decide) rfl).1

/-- C7: with definite range bounds, a row is retained by the query engine iff
its item is selected, its payment method is selected, its purchase date is
present and falls inside the range inclusively, and its purchase amount is
present; rows missing either required field fail the conjunction whatever
else holds (the `dropna` and the `NaT` comparison semantics agree on this),
and the result is always a plain list — an empty selection is an empty
list, never an error. -/
theorem query_engine_retention (ds : List Row) (st : FilterState) (lo hi : Int)
    (hdr : st.date_range = (some lo, some hi)) (r : Row) :
    r ∈ queryEngine ds st ↔
      r ∈ ds ∧ r.item_purchased ∈ st.selected_items ∧
        r.payment_method ∈ st.selected_payments ∧
        (∃ d, r.purchase_date = some d ∧ lo ≤ d ∧ d ≤ hi) ∧
        r.purchase_amount.isSome = true := by
  simp only [queryEngine, List.mem_filter, rowPasses, hdr, Bool.and_eq_true]
  cases hpd : r.purchase_date with
  | none => simp [dateGE, dateLE]
  | some d => simp [dateGE, dateLE, and_assoc, and_comm, and_left_comm]

theorem query_engine_retention_witness :
    beltRow ∈ queryEngine sampleDs st0 :=
  (query_engine_retention sampleDs st0 0 86400 rfl beltRow).mpr
    ⟨by decide, by decide, by decide, ⟨0, rfl, by decide, by decide⟩, rfl⟩

theorem listMin_le {l : List Int} {x : Int} (hx : x ∈ l) :
    ∃ m, listMin l = some m ∧ m ≤ x := by
  induction l with
  | nil => cases hx
  | cons a l ih =>
    cases hx with
    | head =>
      cases hl : listMin l with
      | none => exact ⟨x, by simp [listMin, hl], le_refl x⟩
      | some m => exact ⟨min x m, by simp [listMin, hl], min_le_left x m⟩
    | tail _ hx2 =>
      obtain ⟨m, hm, hmx⟩ := ih hx2
      exact ⟨min a m, by simp [listMin, hm], le_trans (min_le_right a m) hmx⟩

theorem listMax_ge {l : List Int} {x : Int} (hx : x ∈ l) :
    ∃ m, listMax l = some m ∧ x ≤ m := by
  induction l with
  | nil => cases hx
  | cons a l ih =>
    cases hx with
    | head =>
      cases hl : listMax l with
      | none => exact ⟨x, by simp [listMax, hl], le_refl x⟩
      | some m => exact ⟨max x m, by simp [listMax, hl], le_max_left x m⟩
    | tail _ hx2 =>
      obtain ⟨m, hm, hmx⟩ := ih hx2
      exact ⟨max a m, by simp [listMax, hm], le_trans hmx (le_max_right a m)⟩

/-- C8: the query engine run on the reset (full-default) state returns exactly
the dataset rows that have both a purchase amount and a purchase date: every
such row is kept (its item and payment are in the full vocabularies and its
date lies in `[min, max]`), and every row missing either field is dropped. -/
theorem reset_query_roundtrip (ds : List Row) :
    queryEngine ds (resetState ds)
      = ds.filter (fun r => r.purchase_amount.isSome && r.purchase_date.isSome) := by
  unfold queryEngine
  apply List.filter_congr
  intro r hr
  cases hpd : r.purchase_date with
  | none => simp [rowPasses, resetState, hpd, dateGE, dateLE]
  | some d =>
    have hd : d ∈ datasetDates ds := List.mem_filterMap.mpr ⟨r, hr, hpd⟩
    obtain ⟨mn, hmn, hmnle⟩ := listMin_le hd
    obtain ⟨mx, hmx, hmxge⟩ := listMax_ge hd
    have hi : r.item_purchased ∈ allItems ds :=
      List.mem_dedup.mpr (List.mem_map_of_mem Row.item_purchased hr)
    have hp : r.payment_method ∈ allPayments ds :=
      List.mem_dedup.mpr (List.mem_map_of_mem Row.payment_method hr)
    simp [rowPasses, resetState, hpd, hmn, hmx, dateGE, dateLE, hmnle, hmxge, hi, hp]

theorem stagedState_eq (ds : List Row) (tl : Str) (s : FilterState) :
    stagedState ds tl s =
      { selected_items := if potentialItems ds tl = [] then s.selected_items
          else potentialItems ds tl
      , selected_payments := if potentialPayments ds tl = [] then s.selected_payments
          else potentialPayments ds tl
      , date_range := s.date_range } := by
  by_cases hA : potentialItems ds tl = [] <;>
    by_cases hP : potentialPayments ds tl = [] <;>
      simp [stagedState, applyPaymentsStage, applyItemsStage, hA, hP]

/-- C9: with a fixed reference instant and the same oracle, applying the
interpreter to the same non-reset transcript twice in succession yields the
same filter state as applying it once — each dimension is either overwritten
with a value depending only on the transcript or left unchanged. -/
theorem interpret_idempotent (ds : List Row) (parse : Str → Except Str (Option Int))
    (now : Int) (t : Str) (st : FilterState) (hnr : isReset t = false) :
    (interpret ds parse now t (interpret ds parse now t st).state).state
      = (interpret ds parse now t st).state := by
  have h' : isResetL (lowerStr t) = false := hnr
  cases hd : dateStageCore parse now (lowerStr t) with
  | ok o =>
    rw [interpret_ok ds parse now t st o h' hd]
    rw [interpret_ok ds parse now t _ o h' hd]
    rw [stagedState_eq, stagedState_eq]
    by_cases hA : potentialItems ds (lowerStr t) = [] <;>
      by_cases hP : potentialPayments ds (lowerStr t) = [] <;>
        cases o <;> simp [hA, hP]
  | error e =>
    rw [interpret_err ds parse now t st e h' hd]
    rw [interpret_err ds parse now t _ e h' hd]
    rw [stagedState_eq, stagedState_eq]
    by_cases hA : potentialItems ds (lowerStr t) = [] <;>
      by_cases hP : potentialPayments ds (lowerStr t) = [] <;>
        simp [hA, hP]

theorem interpret_idempotent_witness :
    (interpret sampleDs parseNone 0 "show belt paid by cash".toList
        (interpret sampleDs parseNone 0 "show belt paid by cash".toList st0).state).state
      = (interpret sampleDs parseNone 0 "show belt paid by cash".toList st0).state :=
  interpret_idempotent sampleDs parseNone 0 "show belt paid by cash".toList st0 (by decide)
